import Mathlib

/-!
# Verification of the iceberg-matrix data core

Shallow embedding of the pure data-aggregation, filtering, lookup and
comparison functions of the repository (`src/utils/filters.ts`,
`src/utils/support.ts`, `src/utils/comparison.ts`, `src/data/load-data.ts`),
together with theorems settling the specification's claims about them.

String-keyed JS `Record` objects are embedded as association lists with
JS property-assignment semantics (`recLookup`, `setKey`, `objAssign`);
TS string-literal union types that the claims need structurally
(`Version`, `SupportLevel`) are embedded as inductive enumerations, the
rest stay `String`.
-/

/-- TS `type Version = "v2" | "v3"` (`src/types.ts`). -/
inductive Version
  | v2
  | v3
deriving DecidableEq, Repr

/-- String form of a `Version`, as produced by JS template-literal
interpolation of the version value. -/
def Version.toStr : Version → String
  | .v2 => "v2"
  | .v3 => "v3"

/-- TS `type SupportLevel = "full" | "partial" | "none" | "unknown"`
(`src/types.ts`). The `"partial"` literal is embedded as the constructor
`part` because `partial` is a Lean keyword. -/
inductive SupportLevel
  | full
  | part
  | none
  | unknown
deriving DecidableEq, Repr

/-- TS `interface SupportEntry` (`src/types.ts`): level, notes, caveats,
optional links. A link is a (label, url) pair. -/
structure SupportEntry where
  level : SupportLevel
  notes : String
  caveats : List String
  links : Option (List (String × String)) := Option.none
deriving DecidableEq, Repr

/-- TS `interface Platform` (`src/types.ts`). The `category` and `group`
string-literal unions are kept as strings; the claims only compare them. -/
structure Platform where
  id : String
  name : String
  vendor : String
  category : String
  group : String
  docUrl : String
deriving DecidableEq, Repr

/-- TS `interface Feature` (`src/types.ts`); `category` is one of the eight
`FeatureCategory` string literals, kept as a string. -/
structure Feature where
  id : String
  name : String
  category : String
  introducedIn : Version
  description : String
deriving DecidableEq, Repr

/-- Embedding of the JS `Record<string, SupportEntry>` object: an
association list in property-insertion order. JS object keys are unique;
that invariant is carried as a `Nodup` hypothesis where a theorem needs it. -/
abbrev SupportMap := List (String × SupportEntry)

/-- JS property read `r[k]`: the value at key `k`, or `undefined` (`none`)
when absent. Keys in a JS object are unique, so first match is the match. -/
def recLookup : SupportMap → String → Option SupportEntry
  | [], _ => Option.none
  | (k1, v1) :: rest, k => if k1 = k then some v1 else recLookup rest k

/-- The keys of a record, in property order. -/
def keysOf (r : SupportMap) : List String := r.map Prod.fst

/-- JS property write `r[k] = v` as performed by `Object.assign`: overwrite
the existing property in place, or append a new property at the end. -/
def setKey : SupportMap → String → SupportEntry → SupportMap
  | [], k, v => [(k, v)]
  | (k1, v1) :: rest, k, v =>
      if k1 = k then (k, v) :: rest else (k1, v1) :: setKey rest k v

/-- JS `Object.assign(target, src)`: set every property of `src` on
`target`, left to right. -/
def objAssign (target src : SupportMap) : SupportMap :=
  src.foldl (fun acc kv => setKey acc kv.1 kv.2) target

/-- TS `interface CompatibilityData` (`src/types.ts`). -/
structure CompatibilityData where
  platforms : List Platform
  features : List Feature
  versions : List Version
  support : SupportMap
deriving DecidableEq, Repr

/-- TS `interface FilterState` (`src/types.ts`). -/
structure FilterState where
  selectedVersions : List Version
  selectedPlatforms : List String
  selectedCategories : List String
  selectedSupportLevels : List SupportLevel
  searchQuery : String
deriving DecidableEq, Repr

/-- `DEFAULT_ENTRY` from `src/utils/support.ts`: the canonical record
returned on a lookup miss. -/
def DEFAULT_ENTRY : SupportEntry :=
  { level := SupportLevel.unknown, notes := "", caveats := [] }

/-- `supportKey` from `src/utils/support.ts`: the composite key
`platformId:featureId:version` built by template-literal concatenation. -/
def supportKey (platformId featureId : String) (version : Version) : String :=
  platformId ++ ":" ++ featureId ++ ":" ++ version.toStr

/-- `getSupportEntry` from `src/utils/support.ts`: stored record, or a copy
of `DEFAULT_ENTRY` when the key is absent (`data.support[key] ?? ...`).
Total by construction: it never fails. -/
def getSupportEntry (data : CompatibilityData) (platformId featureId : String)
    (version : Version) : SupportEntry :=
  match recLookup data.support (supportKey platformId featureId version) with
  | some e => e
  | Option.none => DEFAULT_ENTRY

/-- `needle.isPrefixOf hay` on character lists, modelling the start of a JS
substring scan. -/
def charSeqStartsWith : List Char → List Char → Bool
  | _, [] => true
  | [], _ :: _ => false
  | a :: as, b :: bs => a == b && charSeqStartsWith as bs

/-- JS `hay.includes(needle)` substring test on character lists. -/
def charSeqIncludes : List Char → List Char → Bool
  | [], needle => needle.isEmpty
  | hay@(_ :: rest), needle =>
      charSeqStartsWith hay needle || charSeqIncludes rest needle

/-- JS `s.includes(sub)` on strings. -/
def strIncludes (s sub : String) : Bool := charSeqIncludes s.data sub.data

/-- The ASCII whitespace characters stripped by JS `s.trim()`. -/
def isJsWhitespace (c : Char) : Bool :=
  c == ' ' || c == '\t' || c == '\n' || c == '\r'

/-- Drop leading whitespace from a character list. -/
def dropLeadingWs : List Char → List Char
  | [] => []
  | c :: rest => if isJsWhitespace c then dropLeadingWs rest else c :: rest

/-- JS `s.trim()`: strip leading and trailing whitespace. -/
def strTrim (s : String) : String :=
  ⟨(dropLeadingWs (dropLeadingWs s.data).reverse).reverse⟩

/-- JS `s.toLowerCase()`: lower-case every character. -/
def strToLower (s : String) : String := ⟨s.data.map Char.toLower⟩

/-- `applyFilters` from `src/utils/filters.ts`: narrows the platform list by
selected ids, gates out v3-introduced features when `"v3"` is unselected,
then narrows features by category and by case-insensitive name search.
The result record `{ platforms, features }`. -/
structure FilterResult where
  platforms : List Platform
  features : List Feature
deriving DecidableEq, Repr

/-- `applyFilters` from `src/utils/filters.ts`, step for step:
platform id inclusion list, v3 gating, category inclusion list,
trimmed lower-cased substring search on the feature name. -/
def applyFilters (data : CompatibilityData) (filters : FilterState) :
    FilterResult :=
  let platforms :=
    if filters.selectedPlatforms.length > 0 then
      data.platforms.filter (fun p => filters.selectedPlatforms.contains p.id)
    else
      data.platforms
  let hasV3 := filters.selectedVersions.contains Version.v3
  let features1 :=
    if !hasV3 then
      data.features.filter (fun f => f.introducedIn != Version.v3)
    else
      data.features
  let features2 :=
    if filters.selectedCategories.length > 0 then
      features1.filter (fun f => filters.selectedCategories.contains f.category)
    else
      features1
  let features3 :=
    if !(strTrim filters.searchQuery == "") then
      features2.filter
        (fun f => strIncludes (strToLower f.name)
          (strToLower (strTrim filters.searchQuery)))
    else
      features2
  { platforms := platforms, features := features3 }

/-- The category predicate applied by `applyFilters` to one feature: empty
selection passes everything, otherwise membership of the feature's category. -/
def categoryPasses (filters : FilterState) (f : Feature) : Bool :=
  decide (filters.selectedCategories.length = 0)
    || filters.selectedCategories.contains f.category

/-- The search predicate applied by `applyFilters` to one feature: blank
trimmed query passes everything, otherwise case-insensitive substring match
on the feature name. -/
def searchPasses (filters : FilterState) (f : Feature) : Bool :=
  (strTrim filters.searchQuery == "")
    || strIncludes (strToLower f.name) (strToLower (strTrim filters.searchQuery))

/-- The per-feature counters record returned by `computeComparison`
(`src/utils/comparison.ts`). -/
structure Comparison where
  gained : Nat
  lost : Nat
  changed : Nat
deriving DecidableEq, Repr

/-- The loop body of `computeComparison`: compare the support levels of one
feature at the two versions and bump the matching counter. -/
def classifyStep (data : CompatibilityData) (platformId : String)
    (versionA versionB : Version) (acc : Comparison) (feature : Feature) :
    Comparison :=
  let a := (getSupportEntry data platformId feature.id versionA).level
  let b := (getSupportEntry data platformId feature.id versionB).level
  if a = b then acc
  else if a = SupportLevel.none ∧ b ≠ SupportLevel.none then
    { acc with gained := acc.gained + 1 }
  else if a ≠ SupportLevel.none ∧ b = SupportLevel.none then
    { acc with lost := acc.lost + 1 }
  else
    { acc with changed := acc.changed + 1 }

/-- `computeComparison` from `src/utils/comparison.ts`: iterate the full
feature catalog for one platform, classifying each feature as gained, lost
or changed between the two versions. -/
def computeComparison (data : CompatibilityData) (platformId : String)
    (versionA versionB : Version) : Comparison :=
  data.features.foldl (classifyStep data platformId versionA versionB)
    { gained := 0, lost := 0, changed := 0 }

/-- The support level of one feature on one platform at one version, as read
through `getSupportEntry`. -/
def levelAt (data : CompatibilityData) (platformId : String) (v : Version)
    (f : Feature) : SupportLevel :=
  (getSupportEntry data platformId f.id v).level

/-- TS `interface VendorFile` from `src/data/load-data.ts`: one vendor
partition, a platforms list plus a support mapping. -/
structure VendorFile where
  platforms : List Platform
  support : SupportMap
deriving DecidableEq, Repr

/-- The feature-catalog partition (`features.json`): features and versions. -/
structure FeatureCatalog where
  features : List Feature
  versions : List Version
deriving DecidableEq, Repr

/-- `mergeData` from `src/data/load-data.ts`: concatenate the AWS source's
platforms and then each remaining vendor's platforms in order, and merge the
support mappings into one object with `Object.assign` (later writes
overwrite earlier ones). The module-level constants `nonAwsVendors` and
`featuresJson` are passed as parameters. -/
def mergeData (awsSource : VendorFile) (nonAwsVendors : List VendorFile)
    (featuresJson : FeatureCatalog) : CompatibilityData :=
  let platforms :=
    nonAwsVendors.foldl (fun acc v => acc ++ v.platforms) awsSource.platforms
  let support :=
    nonAwsVendors.foldl (fun acc v => objAssign acc v.support)
      (objAssign [] awsSource.support)
  { platforms := platforms
    features := featuresJson.features
    versions := featuresJson.versions
    support := support }

/-- Reading the merged partitions from the right: the value a key gets when
every later partition overwrites every earlier one. -/
def lookupLastPart : List SupportMap → String → Option SupportEntry
  | [], _ => Option.none
  | part :: rest, k =>
      match lookupLastPart rest k with
      | some v => some v
      | Option.none => recLookup part k

/-- A partition as it sits in an imported JSON module before any type holds:
either field may be missing (`undefined`). Models the `VendorFile` interface
casts in `src/data/load-data.ts` applied to malformed input. -/
structure RawVendorFile where
  platforms : Option (List Platform)
  support : Option SupportMap
deriving DecidableEq, Repr

/-- The `Object.assign(support, vendor.support)` call on a possibly missing
source: JS `Object.assign` silently ignores an `undefined` source. -/
def assignSupport (acc : SupportMap) (src : RawVendorFile) : SupportMap :=
  match src.support with
  | some s => objAssign acc s
  | Option.none => acc

/-- The vendor loop of `mergeData` on raw partitions:
`platforms.push(...vendor.platforms)` throws a `TypeError` when `platforms`
is missing (spreading `undefined` is not iterable), aborting module
initialization; the support assignment of a partition can never throw. -/
def mergeVendorsRaw : List Platform × SupportMap → List RawVendorFile →
    Except String (List Platform × SupportMap)
  | acc, [] => Except.ok acc
  | acc, v :: rest =>
      match v.platforms with
      | Option.none => Except.error "TypeError: spread of undefined"
      | some ps => mergeVendorsRaw (acc.1 ++ ps, assignSupport acc.2 v) rest

/-- `mergeData` as it actually executes on possibly malformed partitions:
the AWS source's platforms are spread first (throwing if missing), then each
vendor is processed in order; a thrown `TypeError` aborts construction and
no `CompatibilityData` value is produced. -/
def mergeDataRaw (awsSource : RawVendorFile) (nonAwsVendors : List RawVendorFile)
    (featuresJson : FeatureCatalog) : Except String CompatibilityData :=
  match awsSource.platforms with
  | Option.none => Except.error "TypeError: spread of undefined"
  | some awsPs =>
      match mergeVendorsRaw (awsPs, assignSupport [] awsSource) nonAwsVendors with
      | Except.error e => Except.error e
      | Except.ok (platforms, support) =>
          Except.ok
            { platforms := platforms
              features := featuresJson.features
              versions := featuresJson.versions
              support := support }

/-- A support record with a given level and no notes, caveats or links. -/
def entryOf (l : SupportLevel) : SupportEntry :=
  { level := l, notes := "", caveats := [] }

/-- Sample platform used for concrete instances. -/
def examplePlatform : Platform :=
  { id := "p", name := "Engine P", vendor := "Acme", category := "open-source"
    group := "3rd Party", docUrl := "" }

/-- Sample feature: support goes none at v2 to full at v3 (gained). -/
def featX : Feature :=
  { id := "x", name := "Row lineage", category := "row-level-operations"
    introducedIn := Version.v2, description := "" }

/-- Sample feature: support goes full at v2 to none at v3 (lost). -/
def featY : Feature :=
  { id := "y", name := "Rename column", category := "schema-management"
    introducedIn := Version.v2, description := "" }

/-- Sample feature: support goes partial at v2 to full at v3 (changed). -/
def featZ : Feature :=
  { id := "z", name := "Time travel", category := "read-write"
    introducedIn := Version.v2, description := "" }

/-- Sample feature: equal support at both versions (uncounted). -/
def featW : Feature :=
  { id := "w", name := "Hidden partitioning", category := "partitioning"
    introducedIn := Version.v2, description := "" }

/-- Sample v3-introduced feature with no stored entries (unknown at both
versions, hence equal and uncounted by the comparison). -/
def featV : Feature :=
  { id := "v", name := "Deletion vectors", category := "v3-advanced"
    introducedIn := Version.v3, description := "" }

/-- Sample support mapping realizing the scenario of the comparison claim. -/
def exampleSupport : SupportMap :=
  [ (supportKey "p" "x" Version.v2, entryOf SupportLevel.none),
    (supportKey "p" "x" Version.v3, entryOf SupportLevel.full),
    (supportKey "p" "y" Version.v2, entryOf SupportLevel.full),
    (supportKey "p" "y" Version.v3, entryOf SupportLevel.none),
    (supportKey "p" "z" Version.v2, entryOf SupportLevel.part),
    (supportKey "p" "z" Version.v3, entryOf SupportLevel.full),
    (supportKey "p" "w" Version.v2, entryOf SupportLevel.full),
    (supportKey "p" "w" Version.v3, entryOf SupportLevel.full) ]

/-- Sample aggregate data value used for concrete instances. -/
def exampleData : CompatibilityData :=
  { platforms := [examplePlatform]
    features := [featX, featY, featZ, featW, featV]
    versions := [Version.v2, Version.v3]
    support := exampleSupport }

/-- A filter state selecting every version and nothing else. -/
def withV3Filters : FilterState :=
  { selectedVersions := [Version.v2, Version.v3], selectedPlatforms := []
    selectedCategories := [], selectedSupportLevels := [], searchQuery := "" }

/-- A filter state leaving v3 unselected. -/
def noV3Filters : FilterState :=
  { selectedVersions := [Version.v2], selectedPlatforms := []
    selectedCategories := [], selectedSupportLevels := [], searchQuery := "" }

/-- Concrete vendor partition with a single support key. -/
def vendorA : VendorFile :=
  { platforms := [], support := [("pa:f:v2", entryOf SupportLevel.full)] }

/-- A second concrete vendor partition, key-disjoint from `vendorA`. -/
def vendorB : VendorFile :=
  { platforms := [], support := [("pb:f:v2", entryOf SupportLevel.part)] }

/-- An empty feature-catalog partition. -/
def emptyCatalog : FeatureCatalog := { features := [], versions := [] }

/-- Whether an `Except` computation produced a value (did not throw). -/
def exceptOk {e a : Type} : Except e a → Bool
  | Except.ok _ => true
  | Except.error _ => false

/-- A malformed partition: the required `support` field is missing. -/
def malformedVendor : RawVendorFile := { platforms := some [], support := Option.none }

/-- A well-formed raw AWS partition. -/
def wellFormedAws : RawVendorFile :=
  { platforms := some [examplePlatform]
    support := some [("p:x:v2", entryOf SupportLevel.full)] }

/-- C1: `getSupportEntry` returns exactly the canonical default record
`{level: unknown, notes: "", caveats: []}` when the composite key is absent
from the support mapping, and the stored record when it is present. It is a
total function of its four arguments, so it never fails. -/
theorem getSupportEntry_default_on_miss (data : CompatibilityData)
    (platformId featureId : String) (version : Version) :
    (recLookup data.support (supportKey platformId featureId version) =
        Option.none →
      getSupportEntry data platformId featureId version =
        { level := SupportLevel.unknown, notes := "", caveats := []
          links := Option.none })
    ∧ ∀ e, recLookup data.support (supportKey platformId featureId version) =
        some e →
      getSupportEntry data platformId featureId version = e := by
  constructor
  · intro h
    simp [getSupportEntry, h, DEFAULT_ENTRY]
  · intro e h
    simp [getSupportEntry, h]

/-- Witness for C1: in the sample data, the key `p:zzz:v2` is absent and
the lookup returns the default record; the key `p:x:v2` is present and the
lookup returns its stored record. -/
theorem getSupportEntry_default_on_miss_witness :
    getSupportEntry exampleData "p" "zzz" Version.v2 =
      { level := SupportLevel.unknown, notes := "", caveats := []
        links := Option.none }
    ∧ getSupportEntry exampleData "p" "x" Version.v2 =
      entryOf SupportLevel.none :=
  ⟨(getSupportEntry_default_on_miss exampleData "p" "zzz" Version.v2).1
      (by decide),
   (getSupportEntry_default_on_miss exampleData "p" "x" Version.v2).2
      (entryOf SupportLevel.none) (by decide)⟩

/-- C4: with an empty `selectedPlatforms` list, `applyFilters` returns the
platform list unchanged; with a non-empty list it returns exactly the
id-matching sublist, in input order (`List.filter` preserves order). -/
theorem applyFilters_platform_selection (data : CompatibilityData)
    (filters : FilterState) :
    (filters.selectedPlatforms = [] →
      (applyFilters data filters).platforms = data.platforms)
    ∧ (filters.selectedPlatforms ≠ [] →
      (applyFilters data filters).platforms =
        data.platforms.filter
          (fun p => filters.selectedPlatforms.contains p.id)) := by
  constructor
  · intro h
    simp [applyFilters, h]
  · intro h
    have hlen : filters.selectedPlatforms.length > 0 := List.length_pos.mpr h
    simp [applyFilters, hlen]

/-- Witness for C4: on the sample data, the empty selection returns the
platform list unchanged and the selection `["p"]` returns the filtered
sublist. -/
theorem applyFilters_platform_selection_witness :
    (applyFilters exampleData withV3Filters).platforms = exampleData.platforms
    ∧ (applyFilters exampleData
        { withV3Filters with selectedPlatforms := ["p"] }).platforms =
      exampleData.platforms.filter (fun p => (["p"] : List String).contains p.id) :=
  ⟨(applyFilters_platform_selection exampleData withV3Filters).1 rfl,
   (applyFilters_platform_selection exampleData
      { withV3Filters with selectedPlatforms := ["p"] }).2 (by decide)⟩

/-- C6: `applyFilters` never reads `selectedSupportLevels`: two filter
states agreeing on the four consumed fields produce identical results, no
matter how their `selectedSupportLevels` differ. -/
theorem applyFilters_ignores_selectedSupportLevels (data : CompatibilityData)
    (fs1 fs2 : FilterState)
    (hv : fs1.selectedVersions = fs2.selectedVersions)
    (hp : fs1.selectedPlatforms = fs2.selectedPlatforms)
    (hc : fs1.selectedCategories = fs2.selectedCategories)
    (hq : fs1.searchQuery = fs2.searchQuery) :
    applyFilters data fs1 = applyFilters data fs2 := by
  unfold applyFilters
  rw [hv, hp, hc, hq]

/-- Witness for C6: two sample filter states differing only in
`selectedSupportLevels` give the same filtered result. -/
theorem applyFilters_ignores_selectedSupportLevels_witness :
    applyFilters exampleData withV3Filters =
      applyFilters exampleData
        { withV3Filters with selectedSupportLevels := [SupportLevel.full] } :=
  applyFilters_ignores_selectedSupportLevels exampleData withV3Filters
    { withV3Filters with selectedSupportLevels := [SupportLevel.full] }
    rfl rfl rfl rfl

/-- C10: both lists returned by `applyFilters` are order-preserving
sublists of the corresponding input lists (no element is duplicated,
reordered or introduced). The input `CompatibilityData` itself cannot be
mutated: every embedded operation is a pure function. -/
theorem applyFilters_sublists (data : CompatibilityData)
    (filters : FilterState) :
    (applyFilters data filters).platforms.Sublist data.platforms
    ∧ (applyFilters data filters).features.Sublist data.features := by
  unfold applyFilters
  constructor
  · dsimp only
    split
    · exact List.filter_sublist _
    · exact List.Sublist.refl _
  · dsimp only
    split <;> split <;> split <;>
      first
        | exact List.Sublist.refl _
        | exact List.filter_sublist _
        | exact (List.filter_sublist _).trans (List.filter_sublist _)
        | exact (List.filter_sublist _).trans
            ((List.filter_sublist _).trans (List.filter_sublist _))

/-- Membership characterization of the feature list produced by
`applyFilters`: a feature survives iff it is a catalog feature, is not
gated out as v3-only, and passes the category and search predicates. -/
theorem mem_applyFilters_features (data : CompatibilityData)
    (filters : FilterState) (f : Feature) :
    f ∈ (applyFilters data filters).features ↔
      f ∈ data.features
      ∧ (filters.selectedVersions.contains Version.v3 = true
          ∨ f.introducedIn ≠ Version.v3)
      ∧ categoryPasses filters f = true
      ∧ searchPasses filters f = true := by
  unfold applyFilters categoryPasses searchPasses
  dsimp only
  split <;> rename_i h3 <;> split <;> rename_i h2 <;> split <;> rename_i h1 <;>
    simp_all [List.mem_filter, Nat.pos_iff_ne_zero, List.length_eq_zero] <;>
    tauto

/-- C2: when `"v3"` is not among `selectedVersions`, no feature introduced
in v3 appears in the filtered feature list; when `"v3"` is selected, every
catalog feature introduced in v3 that passes the category and search
predicates appears in the result. -/
theorem applyFilters_v3_gating (data : CompatibilityData)
    (filters : FilterState) :
    (filters.selectedVersions.contains Version.v3 = false →
      ∀ f ∈ (applyFilters data filters).features,
        f.introducedIn ≠ Version.v3)
    ∧ (filters.selectedVersions.contains Version.v3 = true →
      ∀ f ∈ data.features, f.introducedIn = Version.v3 →
        categoryPasses filters f = true → searchPasses filters f = true →
          f ∈ (applyFilters data filters).features) := by
  constructor
  · intro h f hf
    rcases (mem_applyFilters_features data filters f).mp hf with ⟨_, hv, _, _⟩
    rcases hv with hv | hv
    · rw [h] at hv
      cases hv
    · exact hv
  · intro h f hf _ hcat hsearch
    exact (mem_applyFilters_features data filters f).mpr
      ⟨hf, Or.inl h, hcat, hsearch⟩

/-- Witness for C2: with v3 unselected, the surviving sample feature
`featX` is not v3-introduced; with v3 selected, the v3-introduced sample
feature `featV` appears in the result. -/
theorem applyFilters_v3_gating_witness :
    featX.introducedIn ≠ Version.v3
    ∧ featV ∈ (applyFilters exampleData withV3Filters).features :=
  ⟨(applyFilters_v3_gating exampleData noV3Filters).1 rfl featX (by decide),
   (applyFilters_v3_gating exampleData withV3Filters).2 rfl featV (by decide)
      rfl (by decide) (by decide)⟩

/-- Fold characterization of the comparison loop: starting from any
accumulator, the loop adds the number of none-to-non-none features to
`gained`, of non-none-to-none features to `lost`, and of otherwise unequal
pairs to `changed`; equal pairs are uncounted. -/
theorem computeComparison_foldl (data : CompatibilityData) (p : String)
    (A B : Version) (l : List Feature) (acc : Comparison) :
    l.foldl (classifyStep data p A B) acc =
      { gained := acc.gained + l.countP (fun f =>
          decide (levelAt data p A f = SupportLevel.none
            ∧ levelAt data p B f ≠ SupportLevel.none))
        lost := acc.lost + l.countP (fun f =>
          decide (levelAt data p A f ≠ SupportLevel.none
            ∧ levelAt data p B f = SupportLevel.none))
        changed := acc.changed + l.countP (fun f =>
          decide (levelAt data p A f ≠ levelAt data p B f
            ∧ levelAt data p A f ≠ SupportLevel.none
            ∧ levelAt data p B f ≠ SupportLevel.none)) } := by
  induction l generalizing acc with
  | nil => simp
  | cons f rest ih =>
    rw [List.foldl_cons, ih]
    rw [List.countP_cons, List.countP_cons, List.countP_cons]
    unfold classifyStep levelAt
    dsimp only
    by_cases h1 : (getSupportEntry data p f.id A).level
        = (getSupportEntry data p f.id B).level
    · simp [h1]
    · by_cases h2 : (getSupportEntry data p f.id A).level = SupportLevel.none
      · have hb : (getSupportEntry data p f.id B).level ≠ SupportLevel.none :=
          fun hb => h1 (h2.trans hb.symm)
        simp [h1, h2, hb, Ne.symm h1, Ne.symm hb]
        omega
      · by_cases h3 : (getSupportEntry data p f.id B).level = SupportLevel.none
        · simp [h1, h2, h3, Ne.symm h1, Ne.symm h2]
          omega
        · simp [h1, h2, h3, Ne.symm h1, Ne.symm h2, Ne.symm h3]
          omega

/-- C3: `computeComparison` classifies each catalog feature by its levels
at the two versions: equal levels are uncounted, `none` to non-`none`
counts as gained, non-`none` to `none` as lost, and any other unequal pair
as changed. In particular, on the sample data where one feature goes
none-to-full, one full-to-none, one partial-to-full and the rest are
equal, the result is `{gained: 1, lost: 1, changed: 1}`. -/
theorem computeComparison_classification (data : CompatibilityData)
    (p : String) (A B : Version) :
    computeComparison data p A B =
      { gained := data.features.countP (fun f =>
          decide (levelAt data p A f = SupportLevel.none
            ∧ levelAt data p B f ≠ SupportLevel.none))
        lost := data.features.countP (fun f =>
          decide (levelAt data p A f ≠ SupportLevel.none
            ∧ levelAt data p B f = SupportLevel.none))
        changed := data.features.countP (fun f =>
          decide (levelAt data p A f ≠ levelAt data p B f
            ∧ levelAt data p A f ≠ SupportLevel.none
            ∧ levelAt data p B f ≠ SupportLevel.none)) }
    ∧ computeComparison exampleData "p" Version.v2 Version.v3 =
      { gained := 1, lost := 1, changed := 1 } := by
  constructor
  · have h := computeComparison_foldl data p A B data.features
      { gained := 0, lost := 0, changed := 0 }
    simpa [computeComparison] using h
  · decide

/-- C9: swapping the two compared versions swaps the gained and lost
counts and leaves the changed count unchanged. -/
theorem computeComparison_swap (data : CompatibilityData) (p : String)
    (A B : Version) :
    computeComparison data p B A =
      { gained := (computeComparison data p A B).lost
        lost := (computeComparison data p A B).gained
        changed := (computeComparison data p A B).changed } := by
  have h1 := computeComparison_foldl data p A B data.features
    { gained := 0, lost := 0, changed := 0 }
  have h2 := computeComparison_foldl data p B A data.features
    { gained := 0, lost := 0, changed := 0 }
  unfold computeComparison
  rw [h1, h2]
  dsimp only
  simp only [Nat.zero_add, Comparison.mk.injEq]
  refine ⟨?_, ?_, ?_⟩
  · exact List.countP_congr (fun f _ => by
      constructor
      · intro h
        rcases of_decide_eq_true h with ⟨ha, hb⟩
        exact decide_eq_true (p := _ ∧ _) ⟨hb, ha⟩
      · intro h
        rcases of_decide_eq_true h with ⟨ha, hb⟩
        exact decide_eq_true (p := _ ∧ _) ⟨hb, ha⟩)
  · exact List.countP_congr (fun f _ => by
      constructor
      · intro h
        rcases of_decide_eq_true h with ⟨ha, hb⟩
        exact decide_eq_true (p := _ ∧ _) ⟨hb, ha⟩
      · intro h
        rcases of_decide_eq_true h with ⟨ha, hb⟩
        exact decide_eq_true (p := _ ∧ _) ⟨hb, ha⟩)
  · exact List.countP_congr (fun f _ => by
      constructor
      · intro h
        rcases of_decide_eq_true h with ⟨hne, ha, hb⟩
        exact decide_eq_true (p := _ ∧ _ ∧ _) ⟨Ne.symm hne, hb, ha⟩
      · intro h
        rcases of_decide_eq_true h with ⟨hne, ha, hb⟩
        exact decide_eq_true (p := _ ∧ _ ∧ _) ⟨Ne.symm hne, hb, ha⟩)

/-- Splitting a character list at the first delimiter is unambiguous when
the part before the delimiter is delimiter-free. -/
theorem colon_split_inj (a1 a2 r1 r2 : List Char)
    (h1 : ':' ∉ a1) (h2 : ':' ∉ a2)
    (h : a1 ++ ':' :: r1 = a2 ++ ':' :: r2) : a1 = a2 ∧ r1 = r2 := by
  induction a1 generalizing a2 with
  | nil =>
    cases a2 with
    | nil => simpa using h
    | cons c cs =>
      simp only [List.nil_append, List.cons_append, List.cons.injEq] at h
      exact absurd (h.1 ▸ List.mem_cons_self c cs) h2
  | cons c cs ih =>
    cases a2 with
    | nil =>
      simp only [List.nil_append, List.cons_append, List.cons.injEq] at h
      exact absurd (h.1 ▸ List.mem_cons_self c cs) h1
  
    | cons d ds =>
      simp only [List.cons_append, List.cons.injEq] at h
      have hcs : ':' ∉ cs := fun hm => h1 (List.mem_cons_of_mem c hm)
      have hds : ':' ∉ ds := fun hm => h2 (List.mem_cons_of_mem d hm)
      obtain ⟨he, hr⟩ := ih ds hcs hds h.2
      exact ⟨by rw [h.1, he], hr⟩

/-- The character content of a composite key: the two ids and the version
string joined by the `:` delimiter. -/
theorem supportKey_data (p f : String) (v : Version) :
    (supportKey p f v).data = p.data ++ ':' :: (f.data ++ ':' :: v.toStr.data) := by
  simp [supportKey, String.data_append]

/-- C5 counterexample: `supportKey` is not injective over all triples. The
two distinct triples `("a:b", "c", v2)` and `("a", "b:c", v2)` collide on
the composite key `"a:b:c:v2"`, because an id may itself contain the `:`
delimiter. -/
theorem supportKey_not_injective :
    supportKey "a:b" "c" Version.v2 = supportKey "a" "b:c" Version.v2
    ∧ ("a:b", "c", Version.v2) ≠ (("a", "b:c", Version.v2) :
        String × String × Version) := by
  constructor
  · decide
  · decide

/-- C5 amended: `supportKey` is deterministic (it is a pure function of its
arguments), and it is injective on every set of triples whose platform and
feature ids do not contain the `:` delimiter character. -/
theorem supportKey_injective_on_colon_free
    (p1 f1 p2 f2 : String) (va vb : Version)
    (hp1 : ':' ∉ p1.data) (hf1 : ':' ∉ f1.data)
    (hp2 : ':' ∉ p2.data) (hf2 : ':' ∉ f2.data)
    (h : supportKey p1 f1 va = supportKey p2 f2 vb) :
    p1 = p2 ∧ f1 = f2 ∧ va = vb := by
  have hd : (supportKey p1 f1 va).data = (supportKey p2 f2 vb).data := by rw [h]
  rw [supportKey_data, supportKey_data] at hd
  obtain ⟨hp, hrest⟩ := colon_split_inj p1.data p2.data _ _ hp1 hp2 hd
  obtain ⟨hf, hv⟩ := colon_split_inj f1.data f2.data _ _ hf1 hf2 hrest
  refine ⟨String.ext hp, String.ext hf, ?_⟩
  cases va <;> cases vb <;> first | rfl | (exfalso; exact absurd hv (by decide))

/-- Witness for C5 (amended): the colon-freeness hypotheses hold for the
concrete ids `aws-athena` and `read-support`, and the theorem applies. -/
theorem supportKey_injective_witness :
    ("aws-athena" : String) = "aws-athena"
    ∧ ("read-support" : String) = "read-support"
    ∧ Version.v2 = Version.v2 :=
  supportKey_injective_on_colon_free "aws-athena" "read-support"
    "aws-athena" "read-support" Version.v2 Version.v2
    (by decide) (by decide) (by decide) (by decide) (by decide)

/-- Unfolding lemma for the key list of a non-empty record. -/
theorem keysOf_cons (k1 : String) (v1 : SupportEntry) (rest : SupportMap) :
    keysOf ((k1, v1) :: rest) = k1 :: keysOf rest := rfl

/-- A key outside a record's key list reads as `undefined`. -/
theorem recLookup_eq_none_of_not_mem (r : SupportMap) (k : String)
    (h : k ∉ keysOf r) : recLookup r k = Option.none := by
  induction r with
  | nil => rfl
  | cons kv rest ih =>
    obtain ⟨k1, v1⟩ := kv
    rw [keysOf_cons, List.mem_cons, not_or] at h
    obtain ⟨hne, hrest⟩ := h
    have hne1 : k1 ≠ k := fun he => hne he.symm
    simp [recLookup, hne1, ih hrest]

/-- Reading after a property write: the written key returns the new
value, every other key is untouched. -/
theorem recLookup_setKey (t : SupportMap) (k0 : String) (v0 : SupportEntry)
    (k : String) :
    recLookup (setKey t k0 v0) k =
      if k0 = k then some v0 else recLookup t k := by
  induction t with
  | nil => rfl
  | cons kv rest ih =>
    obtain ⟨k1, v1⟩ := kv
    by_cases h10 : k1 = k0
    · subst h10
      simp only [setKey, if_pos rfl]
      by_cases hk : k1 = k
      · subst hk
        simp [recLookup]
      · simp [recLookup, hk]
    · simp only [setKey, if_neg h10]
      by_cases hk : k1 = k
      · subst hk
        have hne : k0 ≠ k1 := fun he => h10 he.symm
        simp [recLookup, hne]
      · simp [recLookup, hk, ih]

/-- Reading after `Object.assign`: a key defined by the source wins,
absent keys fall through to the target. Source keys are unique, as in any
JS object. -/
theorem recLookup_objAssign (t s : SupportMap) (k : String)
    (hs : (keysOf s).Nodup) :
    recLookup (objAssign t s) k =
      match recLookup s k with
      | some v => some v
      | Option.none => recLookup t k := by
  induction s generalizing t with
  | nil => simp [objAssign, recLookup]
  | cons kv rest ih =>
    obtain ⟨k0, v0⟩ := kv
    rw [keysOf_cons, List.nodup_cons] at hs
    have hstep : objAssign t ((k0, v0) :: rest) = objAssign (setKey t k0 v0) rest :=
      rfl
    rw [hstep, ih (setKey t k0 v0) hs.2]
    by_cases hk : k0 = k
    · subst hk
      have hrest : recLookup rest k0 = Option.none :=
        recLookup_eq_none_of_not_mem rest k0 hs.1
      simp [recLookup, hrest, recLookup_setKey]
    · cases hr : recLookup rest k <;> simp [recLookup, hr, recLookup_setKey, hk]

/-- Folding `Object.assign` over a partition list: a lookup in the merged
record is resolved by the last partition defining the key, falling through
to the initial accumulator. -/
theorem mergeSupport_lookup (parts : List SupportMap) (acc : SupportMap)
    (k : String) (h : ∀ part ∈ parts, (keysOf part).Nodup) :
    recLookup (parts.foldl objAssign acc) k =
      match lookupLastPart parts k with
      | some v => some v
      | Option.none => recLookup acc k := by
  induction parts generalizing acc with
  | nil => simp [lookupLastPart]
  | cons p rest ih =>
    rw [List.foldl_cons,
      ih (objAssign acc p) (fun q hq => h q (List.mem_cons_of_mem p hq)),
      recLookup_objAssign acc p k (h p (List.mem_cons_self p rest))]
    cases hr : lookupLastPart rest k with
    | some v => simp [lookupLastPart, hr]
    | none => cases hp : recLookup p k <;> simp [lookupLastPart, hr, hp]

/-- Writing a fresh key appends the property at the end. -/
theorem setKey_of_not_mem (t : SupportMap) (k : String) (v : SupportEntry)
    (h : k ∉ keysOf t) : setKey t k v = t ++ [(k, v)] := by
  induction t with
  | nil => rfl
  | cons kv rest ih =>
    obtain ⟨k1, v1⟩ := kv
    rw [keysOf_cons, List.mem_cons, not_or] at h
    have hne : k1 ≠ k := fun he => h.1 he.symm
    simp [setKey, hne, ih h.2]

/-- `Object.assign` with a source whose keys are fresh for the target is
plain concatenation. -/
theorem objAssign_of_disjoint (t s : SupportMap)
    (hs : (keysOf s).Nodup) (hd : ∀ k ∈ keysOf s, k ∉ keysOf t) :
    objAssign t s = t ++ s := by
  induction s generalizing t with
  | nil => simp [objAssign]
  | cons kv rest ih =>
    obtain ⟨k0, v0⟩ := kv
    rw [keysOf_cons, List.nodup_cons] at hs
    have hstep : objAssign t ((k0, v0) :: rest) = objAssign (setKey t k0 v0) rest :=
      rfl
    rw [hstep,
      setKey_of_not_mem t k0 v0 (hd k0 (by rw [keysOf_cons]; exact List.mem_cons_self _ _))]
    have hd2 : ∀ k ∈ keysOf rest, k ∉ keysOf (t ++ [(k0, v0)]) := by
      intro k hk hmem
      have hkeys : keysOf (t ++ [(k0, v0)]) = keysOf t ++ [k0] := by
        simp [keysOf]
      rw [hkeys, List.mem_append, List.mem_singleton] at hmem
      rcases hmem with hmem | hmem
      · exact hd k (by rw [keysOf_cons]; exact List.mem_cons_of_mem _ hk) hmem
      · exact hs.1 (hmem ▸ hk)
    rw [ih (t ++ [(k0, v0)]) hs.2 hd2, List.append_assoc]
    rfl

/-- Folding `Object.assign` over pairwise key-disjoint partitions (whose
keys are also fresh for the accumulator) concatenates them. -/
theorem flattenParts_eq (parts : List SupportMap) (acc : SupportMap)
    (hnd : ∀ part ∈ parts, (keysOf part).Nodup)
    (hpd : parts.Pairwise (fun a b => ∀ k ∈ keysOf a, k ∉ keysOf b))
    (hacc : ∀ part ∈ parts, ∀ k ∈ keysOf part, k ∉ keysOf acc) :
    parts.foldl objAssign acc = acc ++ parts.flatten := by
  induction parts generalizing acc with
  | nil => simp
  | cons p rest ih =>
    rw [List.pairwise_cons] at hpd
    rw [List.foldl_cons,
      objAssign_of_disjoint acc p (hnd p (List.mem_cons_self p rest))
        (hacc p (List.mem_cons_self p rest))]
    have hacc2 : ∀ part ∈ rest, ∀ k ∈ keysOf part, k ∉ keysOf (acc ++ p) := by
      intro part hpart k hk hmem
      have hkeys : keysOf (acc ++ p) = keysOf acc ++ keysOf p := by
        simp [keysOf]
      rw [hkeys, List.mem_append] at hmem
      rcases hmem with hmem | hmem
      · exact hacc part (List.mem_cons_of_mem p hpart) k hk hmem
      · exact hpd.1 part hpart k hmem hk
    rw [ih (acc ++ p) (fun q hq => hnd q (List.mem_cons_of_mem p hq)) hpd.2 hacc2,
      List.flatten_cons, List.append_assoc]

/-- C7: `mergeData` merges the partition support mappings as a
left-to-right union in which a key defined by a later partition overwrites
any earlier value (`lookupLastPart` reads the partitions from the right);
when the partitions are pairwise key-disjoint, the merged mapping's size is
the sum of the partition sizes. -/
theorem mergeData_union_semantics (awsSource : VendorFile)
    (nonAwsVendors : List VendorFile) (featuresJson : FeatureCatalog)
    (hnd : ∀ part ∈ awsSource.support :: nonAwsVendors.map VendorFile.support,
      (keysOf part).Nodup) :
    (∀ k, recLookup (mergeData awsSource nonAwsVendors featuresJson).support k
        = lookupLastPart
            (awsSource.support :: nonAwsVendors.map VendorFile.support) k)
    ∧ ((awsSource.support :: nonAwsVendors.map VendorFile.support).Pairwise
          (fun a b => ∀ k ∈ keysOf a, k ∉ keysOf b) →
        (mergeData awsSource nonAwsVendors featuresJson).support.length
          = ((awsSource.support :: nonAwsVendors.map VendorFile.support).map
              List.length).sum) := by
  have hsup : (mergeData awsSource nonAwsVendors featuresJson).support =
      (awsSource.support :: nonAwsVendors.map VendorFile.support).foldl
        objAssign [] := by
    simp [mergeData, List.foldl_cons, List.foldl_map]
  constructor
  · intro k
    rw [hsup,
      mergeSupport_lookup (awsSource.support :: nonAwsVendors.map VendorFile.support)
        [] k hnd]
    cases lookupLastPart
        (awsSource.support :: nonAwsVendors.map VendorFile.support) k <;> rfl
  · intro hpd
    rw [hsup,
      flattenParts_eq (awsSource.support :: nonAwsVendors.map VendorFile.support)
        [] hnd hpd (by intro part _ k _ hm; simp [keysOf] at hm)]
    simp [List.length_flatten]

/-- Witness for C7: merging two concrete disjoint partitions, the second
partition's key reads back its value and the merged size is 2 = 1 + 1. -/
theorem mergeData_union_semantics_witness :
    recLookup (mergeData vendorA [vendorB] emptyCatalog).support "pb:f:v2"
      = some (entryOf SupportLevel.part)
    ∧ (mergeData vendorA [vendorB] emptyCatalog).support.length = 2 := by
  have h := mergeData_union_semantics vendorA [vendorB] emptyCatalog (by decide)
  refine ⟨(h.1 "pb:f:v2").trans (by decide), (h.2 ?_).trans (by decide)⟩
  decide

/-- The vendor loop completes iff every vendor partition has its
`platforms` field; a missing `support` field never aborts it. -/
theorem mergeVendorsRaw_ok (acc : List Platform × SupportMap)
    (vendors : List RawVendorFile) :
    exceptOk (mergeVendorsRaw acc vendors) = true ↔
      ∀ v ∈ vendors, v.platforms.isSome = true := by
  induction vendors generalizing acc with
  | nil => simp [mergeVendorsRaw, exceptOk]
  | cons v rest ih =>
    cases hv : v.platforms with
    | none => simp [mergeVendorsRaw, hv, exceptOk]
    | some ps => simp [mergeVendorsRaw, hv, ih]

/-- C8 amended: snapshot construction fails fatally iff some partition is
missing its `platforms` field (the array spread throws a `TypeError`); a
partition missing only its `support` field is silently skipped by
`Object.assign` and construction still succeeds. -/
theorem mergeDataRaw_ok_iff (awsSource : RawVendorFile)
    (nonAwsVendors : List RawVendorFile) (featuresJson : FeatureCatalog) :
    exceptOk (mergeDataRaw awsSource nonAwsVendors featuresJson) = true ↔
      awsSource.platforms.isSome = true
      ∧ ∀ v ∈ nonAwsVendors, v.platforms.isSome = true := by
  cases ha : awsSource.platforms with
  | none => simp [mergeDataRaw, ha, exceptOk]
  | some ps =>
    have h := mergeVendorsRaw_ok (ps, assignSupport [] awsSource) nonAwsVendors
    cases hm : mergeVendorsRaw (ps, assignSupport [] awsSource) nonAwsVendors with
    | error e =>
      rw [hm] at h
      simp only [mergeDataRaw, ha, hm]
      simp only [exceptOk] at h ⊢
      simp [← h]
    | ok pr =>
      obtain ⟨pl, su⟩ := pr
      rw [hm] at h
      simp only [mergeDataRaw, ha, hm]
      simp only [exceptOk] at h ⊢
      simp [← h]

/-- C8 counterexample: a malformed vendor partition (required `support`
field missing) does not abort snapshot construction: `mergeData` still
produces a (partial) `CompatibilityData`, contradicting the claim that no
value is produced from malformed input. -/
theorem mergeDataRaw_accepts_missing_support :
    exceptOk (mergeDataRaw wellFormedAws [malformedVendor] emptyCatalog) = true
    ∧ mergeDataRaw wellFormedAws [malformedVendor] emptyCatalog =
      Except.ok
        { platforms := [examplePlatform]
          features := []
          versions := []
          support := [("p:x:v2", entryOf SupportLevel.full)] } := by
  constructor
  · decide
  · rfl

/-- Witness for C8 (amended): construction succeeds on well-formed input
and fails when the AWS partition's `platforms` field is missing. -/
theorem mergeDataRaw_ok_iff_witness :
    exceptOk (mergeDataRaw wellFormedAws [] emptyCatalog) = true
    ∧ exceptOk (mergeDataRaw { platforms := Option.none, support := Option.none }
        [] emptyCatalog) = false :=
  ⟨(mergeDataRaw_ok_iff wellFormedAws [] emptyCatalog).mpr (by decide),
   by
    have h := mergeDataRaw_ok_iff { platforms := Option.none, support := Option.none }
      [] emptyCatalog
    simp only [Option.isSome_none, Bool.false_eq_true, false_and, iff_false] at h
    cases hok : exceptOk (mergeDataRaw
        { platforms := Option.none, support := Option.none } [] emptyCatalog) with
    | false => rfl
    | true => exact absurd hok h⟩
